import Mathlib

/-!
Verification development for the FileScannerApp repository.

The embedding models `src/services/file_scanner.py` (FileScanner.stop,
scan_directory, calculate_directory_info, backup_directories),
`src/models/file_item.py` (FileItem, format_size), and the worker run loops
in `src/workers/scan_worker.py`, `src/workers/calculate_worker.py`,
`src/workers/backup_worker.py`, plus `_start_worker` from
`src/views/main_window.py`.

Machine integers are modelled as `Nat` (Python integers are unbounded, so no
wrap-around is needed).  The shared mutable `self.stopped` boolean, which a
second thread may set to `True` at an arbitrary moment via `stop()`, is
modelled as an explicit `StopFlag` state threaded through every read: the flag
carries its current value plus an optional countdown of reads after which an
external `stop()` call lands.  This captures every possible interleaving of a
single cancellation request with the reads performed by the code.
-/

/-- Model of the shared `self.stopped` boolean of `FileScanner`
(`src/services/file_scanner.py` line 14) together with a schedule for one
external `stop()` call (line 16-18): `cur` is the current value and
`pending = some k` means the k further reads return `cur`-as-is and from the
(k+1)-th read on the flag is observed `true`. -/
structure StopFlag where
  cur : Bool
  pending : Option Nat
deriving DecidableEq, Repr

/-- One read of `self.stopped`: returns the observed value and the successor
flag state.  Once `true` has been observed the flag stays `true` (during one
operation nothing clears it; `stop()` only sets it). -/
def StopFlag.read : StopFlag → Bool × StopFlag
  | ⟨true, p⟩ => (true, ⟨true, p⟩)
  | ⟨false, some 0⟩ => (true, ⟨true, none⟩)
  | ⟨false, some (k + 1)⟩ => (false, ⟨false, some k⟩)
  | ⟨false, none⟩ => (false, ⟨false, none⟩)

/-- The assignment `self.stopped = False` performed at the start of
`scan_directory` (line 30) and `backup_directories` (line 109). -/
def StopFlag.reset (f : StopFlag) : StopFlag := ⟨false, f.pending⟩

/-- A flag that is never set: no cancellation happens during the run. -/
def neverFlag : StopFlag := ⟨false, none⟩

/-- A flag on which `stop()` has already been called before the run begins. -/
def stoppedFlag : StopFlag := ⟨true, none⟩

/-- Model of the `FileItem` dataclass (`src/models/file_item.py` lines 5-14),
with the source's field defaults: `size` defaults to `None` while
`file_count` defaults to `0` and `status` to the string `"未计算"`
(NotComputed).  Status values are the source's literal strings:
`"未计算"` NotComputed, `"已计算"` Computed, `"已取消"` Cancelled,
`"计算错误"` Error. -/
structure FileItem where
  name : String
  path : String
  is_directory : Bool := true
  size : Option Nat := none
  file_count : Option Nat := some 0
  status : String := "未计算"
  checked : Bool := false
deriving DecidableEq, Repr

/-- A directory tree as seen by `os.walk` and `os.path.getsize`.  A regular
file carries its byte size and its inode number (two entries sharing an inode
are hard links to the same file).  A `filelink` is a symbolic link to a file:
it carries the link's own size and `some t` when the target resolves to a
file of size `t`, `none` when the link is broken.  A `dirlink` is a symbolic
link to a directory, with its own size. -/
inductive FSEntry where
  | file : String → Nat → Nat → FSEntry
  | filelink : String → Nat → Option Nat → FSEntry
  | dirlink : String → Nat → FSEntry
  | dir : String → List FSEntry → FSEntry

/-- Whether `os.walk` places the entry in the `files` component of a triple:
regular files and symbolic links to files (broken links included). -/
def isFileLike : FSEntry → Bool
  | .file _ _ _ => true
  | .filelink _ _ _ => true
  | _ => false

mutual
/-- The `files` lists produced by `os.walk(path)` in top-down order
(`src/services/file_scanner.py` line 65).  `os.walk` with the default
`followlinks=False` lists symbolic links to directories in `dirs` but does
not descend into them, so they contribute no `files` list; the code iterates
only the `files` lists, so `dirs` contents are irrelevant beyond recursion. -/
def walkFiles : FSEntry → List (List FSEntry)
  | .dir _ ch => ch.filter isFileLike :: walkList ch
  | _ => []

/-- The `files` lists contributed by the subdirectories among `ch`, in
order.  Only real directories are descended into. -/
def walkList : List FSEntry → List (List FSEntry)
  | [] => []
  | .dir nm ch :: rest => walkFiles (.dir nm ch) ++ walkList rest
  | _ :: rest => walkList rest
end

/-- Model of `os.path.getsize` on a `files` entry
(`src/services/file_scanner.py` line 75): it calls `os.stat`, which FOLLOWS
symbolic links, so a link to a file reports the target's size; on a broken
link it raises, modelled as `none` (the caller catches the exception at
lines 77-78 and skips the entry). -/
def getsize : FSEntry → Option Nat
  | .file _ s _ => some s
  | .filelink _ _ t => t
  | _ => none

/-- The inner `for file in files` loop of `calculate_directory_info`
(lines 70-78): check `self.stopped` before each file, on `True` break;
otherwise add `os.path.getsize` to the running size and bump the count,
skipping entries whose `getsize` raises. -/
def calcFiles : List FSEntry → StopFlag → Nat → Nat → Nat × Nat × StopFlag
  | [], f, s, c => (s, c, f)
  | e :: rest, f, s, c =>
    let p := f.read
    if p.1 then (s, c, p.2)
    else
      match getsize e with
      | some sz => calcFiles rest p.2 (s + sz) (c + 1)
      | none => calcFiles rest p.2 s c

/-- The outer `for root, dirs, files in os.walk(...)` loop of
`calculate_directory_info` (lines 65-78): check `self.stopped` before each
walk triple, on `True` break, otherwise run the inner file loop.  The
source's inner `break` only leaves the file loop, but the very next outer
iteration re-checks the flag and breaks too, which this model reproduces
because an observed `true` is sticky. -/
def calcWalk : List (List FSEntry) → StopFlag → Nat → Nat → Nat × Nat × StopFlag
  | [], f, s, c => (s, c, f)
  | files :: rest, f, s, c =>
    let p := f.read
    if p.1 then (s, c, p.2)
    else
      let r := calcFiles files p.2 s c
      calcWalk rest r.2.2 r.1 r.2.1

/-- Model of `FileScanner.calculate_directory_info`
(`src/services/file_scanner.py` lines 52-90).  `walkFails` models the outer
`except` branch (lines 87-90): an unrecoverable error during the walk, in
which case only `status` is written (set to `"计算错误"`).  Otherwise the
walk runs, and lines 81-83 UNCONDITIONALLY write `size` and `file_count`
(even after a cancellation break, with the partial sums) and set `status`
from a fresh read of `self.stopped`: `"已计算"` if not stopped else
`"已取消"`. -/
def calculate_directory_info (item : FileItem) (t : FSEntry) (walkFails : Bool)
    (f : StopFlag) : FileItem × StopFlag :=
  if walkFails then ({item with status := "计算错误"}, f)
  else
    let r := calcWalk (walkFiles t) f 0 0
    let p := r.2.2.read
    ({item with
        size := some r.1
        file_count := some r.2.1
        status := if p.1 then "已取消" else "已计算"}, p.2)

mutual
/-- Specification-level sum matching what the code computes on a clean run:
for each path, a regular file contributes its size, a symbolic link to a
file contributes its TARGET's size (because `getsize` follows links), a
broken link and a directory symlink contribute nothing, and a real
subdirectory contributes its recursive total. -/
def targetSum : FSEntry → Nat
  | .file _ s _ => s
  | .filelink _ _ t => t.getD 0
  | .dirlink _ _ => 0
  | .dir _ ch => targetSumL ch

/-- Sum of `targetSum` over a list of children. -/
def targetSumL : List FSEntry → Nat
  | [] => 0
  | e :: rest => targetSum e + targetSumL rest
end

mutual
/-- Specification-level count matching the code: one per regular-file path
and one per resolvable file symlink path (its `getsize` succeeds); broken
links and directory symlinks are not counted; subdirectories recurse. -/
def targetCnt : FSEntry → Nat
  | .file _ _ _ => 1
  | .filelink _ _ (some _) => 1
  | .filelink _ _ none => 0
  | .dirlink _ _ => 0
  | .dir _ ch => targetCntL ch

/-- Sum of `targetCnt` over a list of children. -/
def targetCntL : List FSEntry → Nat
  | [] => 0
  | e :: rest => targetCnt e + targetCntL rest
end

/-- Contribution of one `files` list to the size sum on an uncancelled run. -/
def sumGet : List FSEntry → Nat
  | [] => 0
  | e :: rest => (getsize e).getD 0 + sumGet rest

/-- Contribution of one `files` list to the file count on an uncancelled
run. -/
def cntGet : List FSEntry → Nat
  | [] => 0
  | e :: rest => (if (getsize e).isSome then 1 else 0) + cntGet rest

/-- Total size over a list of walk triples. -/
def walkSum : List (List FSEntry) → Nat
  | [] => 0
  | files :: rest => sumGet files + walkSum rest

/-- Total count over a list of walk triples. -/
def walkCnt : List (List FSEntry) → Nat
  | [] => 0
  | files :: rest => cntGet files + walkCnt rest

mutual
/-- Specification-side reading of claim C7 ("the link's own size, not its
target's size, contributes"): every path contributes its OWN stat size —
regular files their size, both kinds of symbolic link their own link size —
and links are never followed. -/
def ownSum : FSEntry → Nat
  | .file _ s _ => s
  | .filelink _ o _ => o
  | .dirlink _ o => o
  | .dir _ ch => ownSumL ch

/-- Sum of `ownSum` over a list of children. -/
def ownSumL : List FSEntry → Nat
  | [] => 0
  | e :: rest => ownSum e + ownSumL rest
end

mutual
/-- The regular files of a tree, one list element per path, as
`(inode, size)` pairs.  Symbolic links are not regular files. -/
def regFiles : FSEntry → List (Nat × Nat)
  | .file _ s i => [(i, s)]
  | .filelink _ _ _ => []
  | .dirlink _ _ => []
  | .dir _ ch => regFilesL ch

/-- Concatenation of `regFiles` over a list of children. -/
def regFilesL : List FSEntry → List (Nat × Nat)
  | [] => []
  | e :: rest => regFiles e ++ regFilesL rest
end

/-- Keep the first occurrence of each inode, dropping hard-link
duplicates. -/
def dedupInodes : List (Nat × Nat) → List Nat → List (Nat × Nat)
  | [], _ => []
  | (i, s) :: rest, seen =>
    if seen.contains i then dedupInodes rest seen
    else (i, s) :: dedupInodes rest (i :: seen)

/-- Sum of the sizes of a list of `(inode, size)` pairs. -/
def pairSizes : List (Nat × Nat) → Nat
  | [] => 0
  | (_, s) :: rest => s + pairSizes rest

/-- Specification-side reading of claim C1: total size of the regular files
of a tree with each file counted once regardless of hard-link duplication,
i.e. summed over distinct inodes. -/
def dedupSum (t : FSEntry) : Nat := pairSizes (dedupInodes (regFiles t) [])

/-- Specification-side reading of claim C1: number of regular files with
hard-link duplicates counted once. -/
def dedupCnt (t : FSEntry) : Nat := (dedupInodes (regFiles t) []).length

/-- Per-path size of the regular files of a tree (no hard-link
deduplication). -/
def regSum (t : FSEntry) : Nat := pairSizes (regFiles t)

/-- Per-path count of the regular files of a tree. -/
def regCnt (t : FSEntry) : Nat := (regFiles t).length

mutual
/-- Whether a tree contains no symbolic link of either kind. -/
def noSymlinks : FSEntry → Bool
  | .file _ _ _ => true
  | .filelink _ _ _ => false
  | .dirlink _ _ => false
  | .dir _ ch => noSymlinksL ch

/-- Conjunction of `noSymlinks` over a list of children. -/
def noSymlinksL : List FSEntry → Bool
  | [] => true
  | e :: rest => noSymlinks e && noSymlinksL rest
end

/-- The discriminated union of Qt signals the workers emit
(`file_found`/`finished` of ScanWorker, `progress`/`finished` of
CalculateWorker, `finished` of BackupWorker, and the `error` signals).
`calcFinished` deliberately carries NO payload: `CalculateWorker.finished`
is declared `pyqtSignal()` (`src/workers/calculate_worker.py` line 11),
unlike the `pyqtSignal(bool)` of the scan and backup workers.  The
floating-point speed argument of the progress signals is omitted. -/
inductive Event where
  | fileFound : FileItem → Event
  | scanFinished : Bool → Event
  | calcProgress : FileItem → Nat → Nat → Event
  | calcFinished : Event
  | backupFinished : Bool → Event
  | errorEvent : String → String → Event
deriving DecidableEq, Repr

/-- One child returned by `os.scandir(path)` in `scan_directory`: its name,
its path, and whether `entry.is_dir()` holds (symlinked directories
included, since `is_dir` follows links by default). -/
structure DirChild where
  name : String
  path : String
  isDir : Bool
deriving DecidableEq, Repr

/-- The `FileItem(...)` construction of `scan_directory`
(`src/services/file_scanner.py` lines 39-43): only `name`, `path` and
`is_directory=True` are passed, every other field takes the dataclass
default — in particular `size = None` but `file_count = 0`. -/
def mkScanItem (nm p : String) : FileItem := {name := nm, path := p}

/-- The fused loop of `ScanWorker.run` (`src/workers/scan_worker.py` lines
21-24) consuming the `scan_directory` generator
(`src/services/file_scanner.py` lines 33-44).  Lazy generator semantics
interleave the two: for each `os.scandir` child the generator checks
`self.stopped` (one flag read) and breaks on `True`; a directory child is
yielded, upon which the worker checks `self.stopped` again (a second read)
and either breaks or emits `file_found`; a non-directory child is skipped
without reaching the worker. -/
def scanWorkerLoop : List DirChild → StopFlag → List Event × StopFlag
  | [], f => ([], f)
  | c :: rest, f =>
    let p := f.read
    if p.1 then ([], p.2)
    else if c.isDir then
      let q := p.2.read
      if q.1 then ([], q.2)
      else
        let r := scanWorkerLoop rest q.2
        (Event.fileFound (mkScanItem c.name c.path) :: r.1, r.2)
    else scanWorkerLoop rest p.2

/-- Model of `ScanWorker.run` (`src/workers/scan_worker.py` lines 18-26) on
a successfully opened directory: the generator first executes
`self.stopped = False` (line 30 of the scanner), the fused loop runs, and
finally `finished.emit(not self.scanner.stopped)` performs one more flag
read. -/
def scanWorkerRun (children : List DirChild) (f0 : StopFlag) :
    List Event × StopFlag :=
  let r := scanWorkerLoop children f0.reset
  let p := r.2.read
  (r.1 ++ [Event.scanFinished (!p.1)], p.2)

/-- The items a never-cancelled scan yields: one per directory child, in
listing order. -/
def scanItems : List DirChild → List FileItem
  | [] => []
  | c :: rest =>
    if c.isDir then mkScanItem c.name c.path :: scanItems rest
    else scanItems rest

/-- Number of flag reads a never-cancelled run of the fused scan loop
performs: one per child plus one more per directory child. -/
def loopReads : List DirChild → Nat
  | [] => 0
  | c :: rest => (if c.isDir then 2 else 1) + loopReads rest

/-- One element of the batch handed to `CalculateWorker`: the `FileItem`,
the directory tree currently under `item.path`, and whether walking that
tree raises an unrecoverable error (the outer `except` of
`calculate_directory_info`). -/
structure CalcTask where
  item : FileItem
  tree : FSEntry
  err : Bool

/-- The `for i, item in enumerate(self.items, 1)` loop of
`CalculateWorker.run` (`src/workers/calculate_worker.py` lines 24-35):
check `self.scanner.stopped` before each item and break on `True` (leaving
the remaining items untouched), otherwise run
`calculate_directory_info` on the item and emit `progress(item, i, total)`.
Returns the emitted events, the final state of all items, and the flag. -/
def calcWorkerGo : List CalcTask → StopFlag → Nat → Nat →
    List Event × List FileItem × StopFlag
  | [], f, _, _ => ([], [], f)
  | t :: rest, f, i, total =>
    let p := f.read
    if p.1 then ([], (t :: rest).map CalcTask.item, p.2)
    else
      let c := calculate_directory_info t.item t.tree t.err p.2
      let r := calcWorkerGo rest c.2 (i + 1) total
      (Event.calcProgress c.1 i total :: r.1, c.1 :: r.2.1, r.2.2)

/-- Model of `CalculateWorker.run` (`src/workers/calculate_worker.py` lines
20-37): the batch loop followed by the unconditional `finished.emit()` —
note there is no `self.stopped = False` reset anywhere on this path, and
the finished signal carries no success flag. -/
def calcWorkerRun (tasks : List CalcTask) (f : StopFlag) :
    List Event × List FileItem × StopFlag :=
  let r := calcWorkerGo tasks f 1 tasks.length
  (r.1 ++ [Event.calcFinished], r.2.1, r.2.2)

/-- The outcome of `calculate_directory_info` on one task when no
cancellation is in effect. -/
def procItem (t : CalcTask) : FileItem :=
  (calculate_directory_info t.item t.tree t.err neverFlag).1

/-- The progress events a never-cancelled batch emits, starting at index
`i` of `total`. -/
def procEvents : List CalcTask → Nat → Nat → List Event
  | [], _, _ => []
  | t :: rest, i, total =>
    Event.calcProgress (procItem t) i total :: procEvents rest (i + 1) total

/-- One source directory of a backup batch: its basename and whether
`shutil.copytree` of it succeeds.  A failing source still creates its
destination directory and copies part of its tree before `copytree`
raises, so it leaves a partial destination behind. -/
structure BackupSrc where
  name : String
  ok : Bool
deriving DecidableEq, Repr

/-- The `for index, src_path in enumerate(src_paths, 1)` loop of
`backup_directories` (`src/services/file_scanner.py` lines 112-136):
check `self.stopped` before each source and return `False` on `True`;
otherwise run `shutil.copytree`, and on any exception log and return
`False` immediately (lines 132-134) — no later source is attempted and
nothing already copied is removed.  After the loop, `return not
self.stopped` reads the flag once more.  The accumulator holds the
destination directories created so far as `(basename, complete)` pairs. -/
def backupGo : List BackupSrc → StopFlag → List (String × Bool) →
    Bool × List (String × Bool) × StopFlag
  | [], f, dests =>
    let p := f.read
    (!p.1, dests, p.2)
  | s :: rest, f, dests =>
    let p := f.read
    if p.1 then (false, dests, p.2)
    else if s.ok then backupGo rest p.2 (dests ++ [(s.name, true)])
    else (false, dests ++ [(s.name, false)], p.2)

/-- Model of `FileScanner.backup_directories`
(`src/services/file_scanner.py` lines 92-140): `self.stopped = False`
first (line 109), then the source loop. -/
def backup_directories (srcs : List BackupSrc) (f : StopFlag) :
    Bool × List (String × Bool) × StopFlag :=
  backupGo srcs f.reset []

/-- Model of `BackupWorker.run` (`src/workers/backup_worker.py` lines
20-32): call `backup_directories` and emit `finished(success)` (the
per-chunk progress callbacks are omitted; they carry no success
information). -/
def backupWorkerRun (srcs : List BackupSrc) (f : StopFlag) :
    List Event × List (String × Bool) × StopFlag :=
  let r := backup_directories srcs f
  ([Event.backupFinished r.1], r.2.1, r.2.2)

/-- The slice of `MainWindow` state relevant to `_start_worker`: the
current value of the shared `FileScanner.stopped` flag. -/
structure UIState where
  scannerStopped : Bool
deriving DecidableEq, Repr

/-- The events a running `ScanWorker` still produces once `_start_worker`
has called `quit()` and `wait()` on it: `quit()` is a no-op for a thread
with an overridden `run`, and `wait()` blocks the UI thread until `run`
returns NATURALLY, so the worker emits its remaining `file_found` items and
then `finished(not stopped)` — with `stopped` unchanged, because
`_start_worker` never calls `scanner.stop()`. -/
def scanWorkerRemaining (stopped : Bool) (pending : List FileItem) :
    List Event :=
  if stopped then [Event.scanFinished false]
  else pending.map Event.fileFound ++ [Event.scanFinished true]

/-- Model of `MainWindow._start_worker` (`src/views/main_window.py` lines
690-712) submitting operation B while scan operation A is running: the old
worker is `quit()`/`wait()`-ed (producing its remaining event stream, with
the stop flag untouched) and only then does B start and produce its
events.  Queued signal delivery preserves this production order. -/
def start_worker (st : UIState) (runningPending : Option (List FileItem))
    (newEvents : List Event) : List Event :=
  match runningPending with
  | some pending => scanWorkerRemaining st.scannerStopped pending ++ newEvents
  | none => newEvents

/-- The unit table of `FileItem.format_size`
(`src/models/file_item.py` line 38). -/
def sizeUnits : List String := ["B", "KB", "MB", "GB", "TB"]

/-- The `while size >= 1024 and unit_index < len(units) - 1` loop of
`format_size` (lines 42-44), tracking the exact value `n / 1024 ^ u` by the
pair `(n, u)`: the guard `size >= 1024` is `1024 ^ (u + 1) ≤ n`.  The fuel
argument encodes the remaining headroom `4 - u` of the guard
`unit_index < 4`.  Division by 1024 is exact in binary floating point (a
pure exponent shift), so for sizes below 2^53 — far beyond the TB range —
the Python float loop computes exactly this. -/
def unitIndexAux : Nat → Nat → Nat → Nat
  | _, u, 0 => u
  | n, u, fuel + 1 =>
    if 1024 ^ (u + 1) ≤ n then unitIndexAux n (u + 1) fuel else u

/-- The unit index `format_size` stops at. -/
def unit_index (n : Nat) : Nat := unitIndexAux n 0 4

/-- The value `n / 1024 ^ u` scaled to hundredths and rounded to nearest,
ties to even — the rounding of Python's `f"{size:.2f}"` on an exactly
represented value. -/
def hundredths (n u : Nat) : Nat :=
  let d := 1024 ^ u
  let q := 100 * n / d
  let r := 100 * n % d
  q + (if d < 2 * r then 1 else if 2 * r < d then 0 else q % 2)

/-- Two-digit zero-padded rendering of the fractional part. -/
def pad2 (k : Nat) : String :=
  if k < 10 then "0" ++ toString k else toString k

/-- Model of `FileItem.format_size` (`src/models/file_item.py` lines 33-46)
on a computed size `n`: divide by 1024 while the value is at least 1024 and
a larger unit exists, then render with two decimals and the chosen unit. -/
def format_size (n : Nat) : String :=
  let u := unit_index n
  let h := hundredths n u
  toString (h / 100) ++ "." ++ pad2 (h % 100) ++ " " ++ sizeUnits.getD u "TB"

theorem read_never : StopFlag.read neverFlag = (false, neverFlag) := rfl

theorem read_stopped : StopFlag.read stoppedFlag = (true, stoppedFlag) := rfl

/-- On a never-cancelled run the inner file loop adds exactly the per-list
totals and leaves the flag untouched. -/
theorem calcFiles_never (fs : List FSEntry) :
    ∀ s c, calcFiles fs neverFlag s c = (s + sumGet fs, c + cntGet fs, neverFlag) := by
  induction fs with
  | nil => intro s c; simp [calcFiles, sumGet, cntGet]
  | cons e rest ih =>
    intro s c
    cases hg : getsize e with
    | some sz =>
      simp [calcFiles, read_never, hg, ih, sumGet, cntGet]
      omega
    | none =>
      simp [calcFiles, read_never, hg, ih, sumGet, cntGet]

/-- On a never-cancelled run the walk loop adds exactly the whole-walk
totals and leaves the flag untouched. -/
theorem calcWalk_never (recs : List (List FSEntry)) :
    ∀ s c, calcWalk recs neverFlag s c = (s + walkSum recs, c + walkCnt recs, neverFlag) := by
  induction recs with
  | nil => intro s c; simp [calcWalk, walkSum, walkCnt]
  | cons files rest ih =>
    intro s c
    simp [calcWalk, read_never, calcFiles_never, ih, walkSum, walkCnt]
    omega

theorem walkSum_append (xs ys : List (List FSEntry)) :
    walkSum (xs ++ ys) = walkSum xs + walkSum ys := by
  induction xs with
  | nil => simp [walkSum]
  | cons x rest ih => simp [walkSum, ih]; omega

theorem walkCnt_append (xs ys : List (List FSEntry)) :
    walkCnt (xs ++ ys) = walkCnt xs + walkCnt ys := by
  induction xs with
  | nil => simp [walkCnt]
  | cons x rest ih => simp [walkCnt, ih]; omega

/-- The imperative walk totals agree with the structural per-path totals on
every list of directory children: summing `getsize` over all `files` lists
of the walk is the same as the structural target-size sum, and likewise for
the counts. -/
theorem walkTotals : (ch : List FSEntry) →
    walkSum (walkList ch) + sumGet (ch.filter isFileLike) = targetSumL ch ∧
    walkCnt (walkList ch) + cntGet (ch.filter isFileLike) = targetCntL ch
  | [] => by simp [walkList, walkSum, walkCnt, sumGet, cntGet, targetSumL, targetCntL]
  | .file nm s i :: rest => by
    have ih := walkTotals rest
    simp [walkList, walkSum, walkCnt, List.filter_cons, isFileLike, sumGet, cntGet,
      targetSumL, targetSum, targetCntL, targetCnt, getsize] at ih ⊢
    omega
  | .filelink nm o t :: rest => by
    have ih := walkTotals rest
    cases t <;>
      simp [walkList, walkSum, walkCnt, List.filter_cons, isFileLike, sumGet, cntGet,
        targetSumL, targetSum, targetCntL, targetCnt, getsize] at ih ⊢ <;>
      omega
  | .dirlink nm o :: rest => by
    have ih := walkTotals rest
    simp [walkList, walkSum, walkCnt, List.filter_cons, isFileLike, sumGet, cntGet,
      targetSumL, targetSum, targetCntL, targetCnt] at ih ⊢
    omega
  | .dir nm ch :: rest => by
    have ihc := walkTotals ch
    have ih := walkTotals rest
    simp [walkList, walkFiles, walkSum_append, walkCnt_append, walkSum, walkCnt,
      List.filter_cons, isFileLike, sumGet, cntGet, targetSumL, targetSum, targetCntL,
      targetCnt] at ihc ih ⊢
    omega

/-- A never-cancelled, error-free aggregation of a directory writes the full
structural totals and status Computed, and leaves the flag untouched. -/
theorem calc_never (item : FileItem) (nm : String) (ch : List FSEntry) :
    calculate_directory_info item (.dir nm ch) false neverFlag =
      ({item with
          size := some (targetSumL ch)
          file_count := some (targetCntL ch)
          status := "已计算"}, neverFlag) := by
  have h := walkTotals ch
  simp [calculate_directory_info, walkFiles, calcWalk_never, read_never,
    walkSum, walkCnt]
  omega

/-- The inner file loop never decreases the accumulators and never exceeds
the full per-list totals, whatever the cancellation schedule. -/
theorem calcFiles_le (fs : List FSEntry) : ∀ f s c,
    s ≤ (calcFiles fs f s c).1 ∧ (calcFiles fs f s c).1 ≤ s + sumGet fs ∧
    c ≤ (calcFiles fs f s c).2.1 ∧ (calcFiles fs f s c).2.1 ≤ c + cntGet fs := by
  induction fs with
  | nil => intro f s c; simp [calcFiles]
  | cons e rest ih =>
    intro f s c
    rcases hr : f.read with ⟨b, f'⟩
    cases b with
    | true => simp [calcFiles, hr]
    | false =>
      cases hg : getsize e with
      | some sz =>
        have h := ih f' (s + sz) (c + 1)
        simp [calcFiles, hr, hg, sumGet, cntGet] at h ⊢
        omega
      | none =>
        have h := ih f' s c
        simp [calcFiles, hr, hg, sumGet, cntGet] at h ⊢
        omega

/-- The walk loop never decreases the accumulators and never exceeds the
full walk totals, whatever the cancellation schedule. -/
theorem calcWalk_le (recs : List (List FSEntry)) : ∀ f s c,
    s ≤ (calcWalk recs f s c).1 ∧ (calcWalk recs f s c).1 ≤ s + walkSum recs ∧
    c ≤ (calcWalk recs f s c).2.1 ∧ (calcWalk recs f s c).2.1 ≤ c + walkCnt recs := by
  induction recs with
  | nil => intro f s c; simp [calcWalk]
  | cons files rest ih =>
    intro f s c
    rcases hr : f.read with ⟨b, f'⟩
    cases b with
    | true => simp [calcWalk, hr]
    | false =>
      have h1 := calcFiles_le files f' s c
      have h2 := ih (calcFiles files f' s c).2.2 (calcFiles files f' s c).1
        (calcFiles files f' s c).2.1
      simp [calcWalk, hr, walkSum, walkCnt] at h2 ⊢
      omega

theorem pairSizes_append (xs ys : List (Nat × Nat)) :
    pairSizes (xs ++ ys) = pairSizes xs + pairSizes ys := by
  induction xs with
  | nil => simp [pairSizes]
  | cons x rest ih => cases x; simp [pairSizes, ih]; omega

/-- On a tree without symbolic links the target totals are exactly the
per-path regular-file totals. -/
theorem noSym_totals : (ch : List FSEntry) → noSymlinksL ch = true →
    targetSumL ch = pairSizes (regFilesL ch) ∧
    targetCntL ch = (regFilesL ch).length
  | [] => by
    intro _
    simp [targetSumL, targetCntL, regFilesL, pairSizes]
  | .file nm s i :: rest => by
    intro h
    simp [noSymlinksL, noSymlinks] at h
    have ih := noSym_totals rest h
    simp [targetSumL, targetSum, targetCntL, targetCnt, regFilesL, regFiles,
      pairSizes, ih]
    omega
  | .filelink nm o t :: rest => by
    intro h
    simp [noSymlinksL, noSymlinks] at h
  | .dirlink nm o :: rest => by
    intro h
    simp [noSymlinksL, noSymlinks] at h
  | .dir nm ch :: rest => by
    intro h
    simp [noSymlinksL, noSymlinks] at h
    have ihc := noSym_totals ch h.1
    have ih := noSym_totals rest h.2
    simp [targetSumL, targetSum, targetCntL, targetCnt, regFilesL, regFiles,
      pairSizes_append, ihc, ih]

/-- C1 counterexample: a directory holding two hard links (same inode 1) to
one file of 5 bytes.  The code sums per path and reports size 10 and count
2, while the claim's "each file counted once, regardless of hard-link
duplication" demands 5 and 1. -/
theorem C1_counterexample :
    (calculate_directory_info (mkScanItem "r" "/r")
        (.dir "r" [.file "a" 5 1, .file "b" 5 1]) false neverFlag).1.size = some 10 ∧
    (calculate_directory_info (mkScanItem "r" "/r")
        (.dir "r" [.file "a" 5 1, .file "b" 5 1]) false neverFlag).1.file_count = some 2 ∧
    dedupSum (.dir "r" [.file "a" 5 1, .file "b" 5 1]) = 5 ∧
    dedupCnt (.dir "r" [.file "a" 5 1, .file "b" 5 1]) = 1 := by
  decide

/-- C1 (amended): on any symlink-free directory tree, an uncancelled,
error-free `calculate_directory_info` sets `entry.size` to the sum of the
byte sizes of all regular-file PATHS in the tree (a file reachable through
several hard links is counted once per path, not deduplicated),
`entry.fileCount` to the number of such paths, and `entry.status` to
Computed (`"已计算"`). -/
theorem C1_per_path_totals (item : FileItem) (nm : String) (ch : List FSEntry)
    (h : noSymlinksL ch = true) :
    (calculate_directory_info item (.dir nm ch) false neverFlag).1 =
      {item with
        size := some (regSum (.dir nm ch))
        file_count := some (regCnt (.dir nm ch))
        status := "已计算"} := by
  have ht := noSym_totals ch h
  have he := calc_never item nm ch
  simp [he, regSum, regCnt, regFiles, ht.1, ht.2]

/-- Witness for C1: a directory with two distinct regular files of 5 and 7
bytes is summed to 12 with count 2 and status Computed. -/
theorem C1_witness :
    noSymlinksL [FSEntry.file "a" 5 1, FSEntry.file "b" 7 2] = true ∧
    (calculate_directory_info (mkScanItem "r" "/r")
        (.dir "r" [.file "a" 5 1, .file "b" 7 2]) false neverFlag).1 =
      {mkScanItem "r" "/r" with
        size := some (regSum (.dir "r" [.file "a" 5 1, .file "b" 7 2]))
        file_count := some (regCnt (.dir "r" [.file "a" 5 1, .file "b" 7 2]))
        status := "已计算"} :=
  ⟨by decide, C1_per_path_totals (mkScanItem "r" "/r") "r"
    [FSEntry.file "a" 5 1, FSEntry.file "b" 7 2] (by decide)⟩

/-- C7 counterexample: a directory with a 100-byte file `a` and a symbolic
link `b` whose own size is 1 byte and whose target is the 100-byte file.
The claim's own-size reading demands 101 bytes in total, but the code
(`os.path.getsize` follows links) computes 200: the computed size differs
from the own-size sum of the tree. -/
theorem C7_counterexample :
    (calculate_directory_info (mkScanItem "r" "/r")
        (.dir "r" [.file "a" 100 1, .filelink "b" 1 (some 100)]) false
        neverFlag).1.size = some 200 ∧
    ownSumL [FSEntry.file "a" 100 1, FSEntry.filelink "b" 1 (some 100)] = 101 ∧
    (calculate_directory_info (mkScanItem "r" "/r")
        (.dir "r" [.file "a" 100 1, .filelink "b" 1 (some 100)]) false
        neverFlag).1.size ≠
      some (ownSumL [FSEntry.file "a" 100 1, FSEntry.filelink "b" 1 (some 100)]) := by
  decide

/-- C7 (amended): during size aggregation, symbolic links are not treated
by their own stat size.  Symbolic links to files ARE followed for sizing:
adding a resolvable link with own size `o` and target size `t` to a
directory adds `t` — not `o` — to the computed size (and 1 to the count);
a broken link adds nothing to either; a symbolic link to a directory is
not descended into and adds nothing regardless of its own size `o`.  In
general the uncancelled aggregation computes exactly the target-following
totals `targetSumL`/`targetCntL`. -/
theorem C7_sizes_follow_links (item : FileItem) (nm lnm : String)
    (ch : List FSEntry) (o t : Nat) :
    (calculate_directory_info item
        (.dir nm (.filelink lnm o (some t) :: ch)) false neverFlag).1.size =
      some (t + targetSumL ch) ∧
    (calculate_directory_info item
        (.dir nm (.filelink lnm o (some t) :: ch)) false
        neverFlag).1.file_count = some (1 + targetCntL ch) ∧
    (calculate_directory_info item
        (.dir nm (.filelink lnm o none :: ch)) false neverFlag).1.size =
      some (targetSumL ch) ∧
    (calculate_directory_info item
        (.dir nm (.filelink lnm o none :: ch)) false neverFlag).1.file_count =
      some (targetCntL ch) ∧
    (calculate_directory_info item
        (.dir nm (.dirlink lnm o :: ch)) false neverFlag).1.size =
      some (targetSumL ch) ∧
    (calculate_directory_info item
        (.dir nm (.dirlink lnm o :: ch)) false neverFlag).1.file_count =
      some (targetCntL ch) ∧
    (calculate_directory_info item (.dir nm ch) false neverFlag).1.size =
      some (targetSumL ch) ∧
    (calculate_directory_info item (.dir nm ch) false neverFlag).1.file_count =
      some (targetCntL ch) := by
  simp [calc_never, targetSumL, targetSum, targetCntL, targetCnt]

/-- C2 counterexample: aggregating a directory with a 3-byte and a 5-byte
file, with cancellation landing after two flag reads, ends with status
Cancelled AND `size = 3`, `fileCount = 1` written back — the partial sums
are not discarded, contradicting "size and fileCount remain unset". -/
theorem C2_counterexample :
    (calculate_directory_info (mkScanItem "r" "/r")
        (.dir "r" [.file "a" 3 1, .file "b" 5 2]) false
        ⟨false, some 2⟩).1 =
      {mkScanItem "r" "/r" with size := some 3, file_count := some 1, status := "已取消"} := by
  decide

/-- C2 (amended): whenever an aggregation of a directory ends Cancelled,
`size` and `fileCount` have BOTH been written back with the partial sums
accumulated before the cancellation was observed — each at most the full
tree total — rather than remaining unset. -/
theorem C2_cancelled_sums_written (item : FileItem) (nm : String) (ch : List FSEntry)
    (f : StopFlag)
    (_hc : (calculate_directory_info item (.dir nm ch) false f).1.status = "已取消") :
    ∃ s c, (calculate_directory_info item (.dir nm ch) false f).1.size = some s ∧
      (calculate_directory_info item (.dir nm ch) false f).1.file_count = some c ∧
      s ≤ targetSumL ch ∧ c ≤ targetCntL ch := by
  have hb := calcWalk_le (walkFiles (.dir nm ch)) f 0 0
  have ht := walkTotals ch
  refine ⟨(calcWalk (walkFiles (.dir nm ch)) f 0 0).1,
    (calcWalk (walkFiles (.dir nm ch)) f 0 0).2.1, ?_, ?_, ?_, ?_⟩
  · simp [calculate_directory_info]
  · simp [calculate_directory_info]
  · simp only [walkFiles, walkSum] at hb ⊢
    omega
  · simp only [walkFiles, walkCnt] at hb ⊢
    omega

/-- Witness for C2: the counterexample input satisfies the hypothesis
(status is Cancelled) and the amended conclusion. -/
theorem C2_witness :
    ∃ s c, (calculate_directory_info (mkScanItem "r" "/r")
        (.dir "r" [.file "a" 3 1, .file "b" 5 2]) false
        ⟨false, some 2⟩).1.size = some s ∧
      (calculate_directory_info (mkScanItem "r" "/r")
          (.dir "r" [.file "a" 3 1, .file "b" 5 2]) false
          ⟨false, some 2⟩).1.file_count = some c ∧
      s ≤ targetSumL [FSEntry.file "a" 3 1, FSEntry.file "b" 5 2] ∧
      c ≤ targetCntL [FSEntry.file "a" 3 1, FSEntry.file "b" 5 2] :=
  C2_cancelled_sums_written (mkScanItem "r" "/r") "r"
    [FSEntry.file "a" 3 1, FSEntry.file "b" 5 2] ⟨false, some 2⟩ (by decide)

/-- C3 counterexample: operation A (a scan with no items left) is running
with the stop flag clear when operation B is submitted. `_start_worker`
produces A's completion with success TRUE before B's events, and no
`Completed{success:false}` for A ever appears — because `_start_worker`
calls `quit()`/`wait()` but never `scanner.stop()`. -/
theorem C3_counterexample :
    start_worker ⟨false⟩ (some []) [Event.calcFinished] =
      [Event.scanFinished true, Event.calcFinished] ∧
    Event.scanFinished false ∉ start_worker ⟨false⟩ (some []) [Event.calcFinished] := by
  decide

/-- C3 (amended): submitting operation B while scan operation A runs makes
the coordinator wait for A to complete before any of B's events, but A is
NOT cancelled: A's terminal event carries A's natural success value — true
unless a stop was requested separately — and precedes all of B's events. -/
theorem C3_wait_without_cancel (st : UIState) (pending : List FileItem)
    (newEvents : List Event) :
    ∃ pre, start_worker st (some pending) newEvents =
        pre ++ Event.scanFinished (!st.scannerStopped) :: newEvents ∧
      ∀ e ∈ pre, ∃ it, e = Event.fileFound it := by
  cases hst : st.scannerStopped with
  | true =>
    refine ⟨[], ?_, by simp⟩
    simp [start_worker, scanWorkerRemaining, hst]
  | false =>
    refine ⟨pending.map Event.fileFound, ?_, ?_⟩
    · simp [start_worker, scanWorkerRemaining, hst]
    · intro e he
      simp only [List.mem_map] at he
      obtain ⟨it, _, rfl⟩ := he
      exact ⟨it, rfl⟩

/-- C4 counterexample: the entry the Enumerator creates for child directory
`a` has `size` unset but `fileCount` already set to 0 — the dataclass
defaults are `size=None`, `file_count=0` — so "size and fileCount either
both unset or both set" fails immediately after creation. -/
theorem C4_counterexample :
    (scanWorkerRun [⟨"a", "/r/a", true⟩] neverFlag).1 =
      [Event.fileFound (mkScanItem "a" "/r/a"), Event.scanFinished true] ∧
    (mkScanItem "a" "/r/a").size = none ∧
    (mkScanItem "a" "/r/a").file_count = some 0 := by
  decide

/-- C4 (amended): a freshly created entry has status NotComputed with
`size` unset but `fileCount` set to 0; every aggregation pass moves the
status to exactly one of Computed, Cancelled or Error, with Computed and
Cancelled writing both `size` and `fileCount`, and Error leaving both
fields unchanged from their previous values. -/
theorem C4_status_and_fields (item : FileItem) (t : FSEntry) (e : Bool)
    (f : StopFlag) :
    ((calculate_directory_info item t e f).1.status = "已计算" ∨
      (calculate_directory_info item t e f).1.status = "已取消" ∨
      (calculate_directory_info item t e f).1.status = "计算错误") ∧
    ((calculate_directory_info item t e f).1.status = "已计算" ∨
        (calculate_directory_info item t e f).1.status = "已取消" →
      ((calculate_directory_info item t e f).1.size).isSome ∧
        ((calculate_directory_info item t e f).1.file_count).isSome) ∧
    ((calculate_directory_info item t e f).1.status = "计算错误" →
      (calculate_directory_info item t e f).1.size = item.size ∧
        (calculate_directory_info item t e f).1.file_count = item.file_count) ∧
    (mkScanItem item.name item.path).size = none ∧
    (mkScanItem item.name item.path).file_count = some 0 ∧
    (mkScanItem item.name item.path).status = "未计算" := by
  cases e with
  | true =>
    have hst : (calculate_directory_info item t true f).1.status = "计算错误" := rfl
    refine ⟨Or.inr (Or.inr hst), ?_, ?_, rfl, rfl, rfl⟩
    · intro h
      rcases h with h | h <;> rw [hst] at h <;> exact absurd h (by decide)
    · intro _
      exact ⟨rfl, rfl⟩
  | false =>
    cases hb : ((calcWalk (walkFiles t) f 0 0).2.2.read).1 with
    | false =>
      have hst : (calculate_directory_info item t false f).1.status = "已计算" := by
        simp [calculate_directory_info, hb]
      refine ⟨Or.inl hst, ?_, ?_, rfl, rfl, rfl⟩
      · intro _
        constructor <;> simp [calculate_directory_info]
      · intro h
        rw [hst] at h
        exact absurd h (by decide)
    | true =>
      have hst : (calculate_directory_info item t false f).1.status = "已取消" := by
        simp [calculate_directory_info, hb]
      refine ⟨Or.inr (Or.inl hst), ?_, ?_, rfl, rfl, rfl⟩
      · intro _
        constructor <;> simp [calculate_directory_info]
      · intro h
        rw [hst] at h
        exact absurd h (by decide)

/-- Witness for C4: on an empty directory with no error and no
cancellation, the implication for the Computed/Cancelled statuses fires and
both fields are indeed set. -/
theorem C4_witness :
    ((calculate_directory_info (mkScanItem "r" "/r") (.dir "r" []) false
        neverFlag).1.size).isSome ∧
    ((calculate_directory_info (mkScanItem "r" "/r") (.dir "r" []) false
        neverFlag).1.file_count).isSome :=
  (C4_status_and_fields (mkScanItem "r" "/r") (.dir "r" []) false
    neverFlag).2.1 (by decide)

/-- Reset lemmas: resetting either canonical flag yields the clear flag. -/
theorem reset_never : neverFlag.reset = neverFlag := rfl

theorem reset_stopped : stoppedFlag.reset = neverFlag := rfl

/-- Aggregation leaves a never-set flag never-set. -/
theorem calc_never_flag (item : FileItem) (t : FSEntry) (err : Bool) :
    (calculate_directory_info item t err neverFlag).2 = neverFlag := by
  cases err with
  | true => rfl
  | false =>
    have h := calcWalk_never (walkFiles t) 0 0
    simp [calculate_directory_info, h, read_never]

theorem procEvents_length (tasks : List CalcTask) :
    ∀ i total, (procEvents tasks i total).length = tasks.length := by
  induction tasks with
  | nil => intro i total; simp [procEvents]
  | cons t rest ih => intro i total; simp [procEvents, ih]

/-- On a never-cancelled batch the worker loop processes every task in
order, emitting one progress event per task. -/
theorem calcWorkerGo_never (tasks : List CalcTask) :
    ∀ i total, calcWorkerGo tasks neverFlag i total =
      (procEvents tasks i total, tasks.map procItem, neverFlag) := by
  induction tasks with
  | nil => intro i total; simp [calcWorkerGo, procEvents]
  | cons t rest ih =>
    intro i total
    have hf := calc_never_flag t.item t.tree t.err
    simp [calcWorkerGo, read_never, procEvents, procItem, hf, ih]

/-- C5 (amended): in a never-cancelled batch, a per-entry unrecoverable
error sets that entry's status to Error (`"计算错误"`) and leaves its
`size`/`fileCount` fields exactly as they were (size stays unset,
fileCount keeps its creation default), the batch continues through every
following entry, and the batch-level completion event is still emitted —
as the payload-free `finished` signal, which carries no success flag for
per-item errors to flip. -/
theorem C5_error_continues (pre : List CalcTask) (bad : CalcTask)
    (post : List CalcTask) (hbad : bad.err = true) :
    (calcWorkerRun (pre ++ bad :: post) neverFlag).2.1 =
      pre.map procItem ++
        ({bad.item with status := "计算错误"} :: post.map procItem) ∧
    (calcWorkerRun (pre ++ bad :: post) neverFlag).1.length =
      (pre ++ bad :: post).length + 1 ∧
    (calcWorkerRun (pre ++ bad :: post) neverFlag).1.getLast? =
      some Event.calcFinished := by
  have hbaditem : procItem bad = {bad.item with status := "计算错误"} := by
    simp [procItem, hbad, calculate_directory_info]
  refine ⟨?_, ?_, ?_⟩
  · simp [calcWorkerRun, calcWorkerGo_never, hbaditem]
  · simp [calcWorkerRun, calcWorkerGo_never, procEvents_length]
  · simp [calcWorkerRun, List.getLast?_concat]

/-- Witness for C5: a one-element batch whose only entry errors ends with
that entry marked Error, fields untouched, and the bare completion event. -/
theorem C5_witness :
    (calcWorkerRun [⟨mkScanItem "a" "/a", FSEntry.dir "a" [], true⟩]
        neverFlag).2.1 = [{mkScanItem "a" "/a" with status := "计算错误"}] ∧
    (calcWorkerRun [⟨mkScanItem "a" "/a", FSEntry.dir "a" [], true⟩]
        neverFlag).1.length = 2 ∧
    (calcWorkerRun [⟨mkScanItem "a" "/a", FSEntry.dir "a" [], true⟩]
        neverFlag).1.getLast? = some Event.calcFinished := by
  simpa using C5_error_continues []
    ⟨mkScanItem "a" "/a", FSEntry.dir "a" [], true⟩ [] rfl

/-- C5 counterexample: a batch cancelled before it starts terminates with
exactly the same bare `finished` event as a successful batch — the
completion signal of `CalculateWorker` carries no success flag at all, so
cancellation does not (and cannot) flip an overall success to false. -/
theorem C5_counterexample :
    (calcWorkerRun [⟨mkScanItem "b" "/b", FSEntry.dir "b" [], false⟩]
        stoppedFlag).1 = [Event.calcFinished] ∧
    (calcWorkerRun ([] : List CalcTask) neverFlag).1 = [Event.calcFinished] :=
  ⟨rfl, rfl⟩

/-- The backup loop on a clear flag: every source before the first failing
one is copied completely, the failing one leaves a partial destination, and
the loop returns `False` without touching later sources. -/
theorem backupGo_abort : (pre : List BackupSrc) → ∀ (bad : BackupSrc)
    (post : List BackupSrc), (∀ s ∈ pre, s.ok = true) → bad.ok = false →
    ∀ dests, backupGo (pre ++ bad :: post) neverFlag dests =
      (false, dests ++ pre.map (fun s => (s.name, true)) ++ [(bad.name, false)],
        neverFlag)
  | [] => by
    intro bad post _ hbad dests
    simp [backupGo, read_never, hbad]
  | s :: rest => by
    intro bad post hpre hbad dests
    have hs : s.ok = true := hpre s (by simp)
    have ih := backupGo_abort rest bad post (fun x hx => hpre x (by simp [hx]))
      hbad (dests ++ [(s.name, true)])
    simp [backupGo, read_never, hs, ih]

/-- C6: an error while copying any one source directory makes
`backup_directories` return `False` immediately: the sources before it are
fully copied, the failing one leaves its partial destination in place (no
rollback), no later source is attempted, and `BackupWorker` reports
`finished(False)` to the caller. -/
theorem C6_batch_abort (pre : List BackupSrc) (bad : BackupSrc)
    (post : List BackupSrc) (hpre : ∀ s ∈ pre, s.ok = true)
    (hbad : bad.ok = false) :
    backup_directories (pre ++ bad :: post) neverFlag =
      (false, pre.map (fun s => (s.name, true)) ++ [(bad.name, false)],
        neverFlag) ∧
    (backupWorkerRun (pre ++ bad :: post) neverFlag).1 =
      [Event.backupFinished false] := by
  have h := backupGo_abort pre bad post hpre hbad []
  refine ⟨?_, ?_⟩
  · simpa [backup_directories, reset_never] using h
  · simp [backupWorkerRun, backup_directories, reset_never, h]

/-- Witness for C6: sources a (ok), b (fails), c (ok): the batch stops at
b with failure reported, `a` copied, `b` partial, `c` never attempted. -/
theorem C6_witness :
    backup_directories [⟨"a", true⟩, ⟨"b", false⟩, ⟨"c", true⟩] neverFlag =
      (false, [("a", true), ("b", false)], neverFlag) ∧
    (backupWorkerRun [⟨"a", true⟩, ⟨"b", false⟩, ⟨"c", true⟩] neverFlag).1 =
      [Event.backupFinished false] := by
  simpa using C6_batch_abort [⟨"a", true⟩] ⟨"b", false⟩ [⟨"c", true⟩]
    (by decide) rfl

/-- Reading a flag whose current value is `true` observes `true`. -/
theorem read_cur_true (f : StopFlag) (h : f.cur = true) : (f.read).1 = true := by
  rcases f with ⟨cur, p⟩
  cases cur with
  | false => simp at h
  | true => cases p <;> rfl

/-- If the cancellation lands within the reads of the fused scan loop, the
loop emits a prefix of the full item stream and finishes with the flag
observed `true`. -/
theorem scanLoop_cancel : (children : List DirChild) → ∀ k,
    k < loopReads children →
    ∃ m f', scanWorkerLoop children ⟨false, some k⟩ =
      (((scanItems children).take m).map Event.fileFound, f') ∧ f'.cur = true
  | [] => by
    intro k hk
    simp [loopReads] at hk
  | c :: rest => by
    intro k hk
    cases hd : c.isDir with
    | false =>
      cases k with
      | zero =>
        refine ⟨0, ⟨true, none⟩, ?_, rfl⟩
        simp [scanWorkerLoop, StopFlag.read]
      | succ k' =>
        have hk' : k' < loopReads rest := by
          simp [loopReads, hd] at hk
          omega
        obtain ⟨m, f', hm, hc⟩ := scanLoop_cancel rest k' hk'
        refine ⟨m, f', ?_, hc⟩
        simp [scanWorkerLoop, StopFlag.read, hd, hm, scanItems]
    | true =>
      cases k with
      | zero =>
        refine ⟨0, ⟨true, none⟩, ?_, rfl⟩
        simp [scanWorkerLoop, StopFlag.read]
      | succ k' =>
        cases k' with
        | zero =>
          refine ⟨0, ⟨true, none⟩, ?_, rfl⟩
          simp [scanWorkerLoop, StopFlag.read, hd]
        | succ k'' =>
          have hk'' : k'' < loopReads rest := by
            simp [loopReads, hd] at hk
            omega
          obtain ⟨m, f', hm, hc⟩ := scanLoop_cancel rest k'' hk''
          refine ⟨m + 1, f', ?_, hc⟩
          simp [scanWorkerLoop, StopFlag.read, hd, hm, scanItems]

/-- C9: the token is checked before each yielded entry, and a cancellation
that lands anywhere within the listing loop makes the enumeration stop
early — the event stream is a prefix of the item stream terminated by
`Completed{success:false}` (`finished(False)`), with no error event. -/
theorem C9_cancel_mid_listing (children : List DirChild) (b : Bool) (k : Nat)
    (hk : k < loopReads children) :
    ∃ m, (scanWorkerRun children ⟨b, some k⟩).1 =
      ((scanItems children).take m).map Event.fileFound ++
        [Event.scanFinished false] := by
  obtain ⟨m, f', hm, hc⟩ := scanLoop_cancel children k hk
  refine ⟨m, ?_⟩
  have hread : (f'.read).1 = true := read_cur_true f' hc
  simp [scanWorkerRun, StopFlag.reset, hm, hread]

/-- Witness for C9: a single directory child with cancellation landing at
the first flag read yields no items and `finished(False)`. -/
theorem C9_witness :
    0 < loopReads [⟨"a", "/r/a", true⟩] ∧
    ∃ m, (scanWorkerRun [⟨"a", "/r/a", true⟩] ⟨false, some 0⟩).1 =
      ((scanItems [⟨"a", "/r/a", true⟩]).take m).map Event.fileFound ++
        [Event.scanFinished false] :=
  ⟨by decide, C9_cancel_mid_listing [⟨"a", "/r/a", true⟩] false 0 (by decide)⟩

/-- C10: the shared stop flag is cleared at the start of an enumeration and
of a copy batch — running either on a pre-stopped flag behaves exactly as
on a clear flag — but never at the start of an aggregation batch: if
`stop()` was called before `CalculateWorker.run` begins, the batch
processes zero entries (every item is returned untouched), emits no
per-entry progress event, and still emits its `finished` event. -/
theorem C10_reset_asymmetry :
    (∀ tasks : List CalcTask, calcWorkerRun tasks stoppedFlag =
      ([Event.calcFinished], tasks.map CalcTask.item, stoppedFlag)) ∧
    (∀ children : List DirChild, scanWorkerRun children stoppedFlag =
      scanWorkerRun children neverFlag) ∧
    (∀ srcs : List BackupSrc, backup_directories srcs stoppedFlag =
      backup_directories srcs neverFlag) := by
  refine ⟨?_, ?_, ?_⟩
  · intro tasks
    cases tasks <;> rfl
  · intro children
    rfl
  · intro srcs
    rfl

/-- The loop of `format_size` unrolled: the unit index is determined by the
thresholds 1024, 1024², 1024³, 1024⁴. -/
theorem unit_index_eq (n : Nat) :
    unit_index n =
      if 1024 ≤ n then
        if 1024 ^ 2 ≤ n then
          if 1024 ^ 3 ≤ n then
            if 1024 ^ 4 ≤ n then 4 else 3
          else 2
        else 1
      else 0 := by
  simp [unit_index, unitIndexAux]

/-- The unit `format_size` stops at is the largest whose threshold is at
most the size, capped at the last unit. -/
theorem unit_index_spec (n : Nat) :
    (1024 ^ unit_index n ≤ n ∨ unit_index n = 0) ∧
    (n < 1024 ^ (unit_index n + 1) ∨ unit_index n = 4) ∧
    unit_index n ≤ 4 := by
  have h := unit_index_eq n
  split_ifs at h <;> rw [h] <;> norm_num at * <;> omega

/-- C8: `format_size` renders `0`, `1024`, `1536` and `1024^4` bytes as the
claimed strings, and in general repeatedly divides by 1024 over the unit
table `B, KB, MB, GB, TB` with two-decimal precision, stopping at the
largest unit whose threshold does not exceed the size — or at `TB` for
sizes of a terabyte and beyond. -/
theorem C8_format_size :
    format_size 0 = "0.00 B" ∧
    format_size 1024 = "1.00 KB" ∧
    format_size 1536 = "1.50 KB" ∧
    format_size (1024 ^ 4) = "1.00 TB" ∧
    ∀ n : Nat,
      (1024 ^ unit_index n ≤ n ∨ unit_index n = 0) ∧
      (n < 1024 ^ (unit_index n + 1) ∨ unit_index n = 4) ∧
      unit_index n ≤ 4 ∧
      ∃ pre, format_size n =
        pre ++ sizeUnits.getD (unit_index n) "TB" := by
  refine ⟨by decide, by decide, by decide, by rfl, ?_⟩
  intro n
  obtain ⟨h1, h2, h3⟩ := unit_index_spec n
  exact ⟨h1, h2, h3,
    ⟨toString (hundredths n (unit_index n) / 100) ++ "." ++
      pad2 (hundredths n (unit_index n) % 100) ++ " ", rfl⟩⟩
